import Mathlib

/-!
Verification of the INFLXD transcription client (src/streamlit_app.py).

The development shallowly embeds the session/job-state management and the
API request layer of the application: the session state (auth token, derived
user hash, session job history, cross-login archive), the history operations
`save_job_to_history`, `load_user_history` and the status-update loops, the
authenticate/logout button handlers, the HTTP wrapper `make_api_request`,
the export query-string construction, and the auto-refresh condition.

Python dictionaries are embedded as association lists, Python `None` as
`Option`, and a raised exception that escapes a function as an `Option`
result of `none`.  The MD5 hex digest used for user identification is kept
as an explicit function parameter `md5hex : String → String`; the
truncation to 16 characters performed by the application is part of the
embedding.
-/

namespace INFLXD

/-- A job record as built by `save_job_to_history` (lines 106-112):
the five fields id, title, company, submitted_at, status. -/
structure JobRecord where
  id : String
  title : String
  company : String
  submitted_at : String
  status : String
deriving DecidableEq, Repr

/-- A completed HTTP exchange: status code plus body, the two parts of a
`requests` response that the application reads. -/
structure HttpResponse where
  status_code : Nat
  text : String
deriving DecidableEq, Repr

/-- The outcome of the underlying transport for one attempted exchange:
either the exchange completes with a response (whatever its status code),
or a transport-level failure (connection refused, DNS failure, timeout)
raises an exception carrying a message. -/
inductive Transport where
  | completes (r : HttpResponse)
  | fails (msg : String)
deriving DecidableEq, Repr

/-- What `make_api_request` hands back to its caller: the raw response
object, or Python `None` after reporting an error message via `st.error`. -/
inductive ApiResult where
  | response (r : HttpResponse)
  | errorNone (msg : String)
deriving DecidableEq, Repr

/-- The session state fields the specified core touches (lines 48-55):
`api_token`, `job_history` (the session-scoped list, spec name
`active_jobs`), `global_history` (the archive, a dict from user hash to
job list, embedded as an association list), and `current_user_hash`. -/
structure SessionState where
  api_token : Option String
  job_history : List JobRecord
  global_history : List (String × List JobRecord)
  current_user_hash : Option String
deriving DecidableEq, Repr

/-- The freshly initialised session state (lines 48-55). -/
def initialState : SessionState :=
  { api_token := none, job_history := [], global_history := [], current_user_hash := none }

/-- Dictionary lookup on an association list (Python `d[k]` / `k in d`). -/
def dictGet {α : Type} (d : List (String × α)) (k : String) : Option α :=
  match d with
  | [] => none
  | (k0, v) :: rest => if k0 = k then some v else dictGet rest k

/-- Dictionary update `d[k] = v` on an association list: replaces the value
at the first occurrence of `k`, or appends the binding if `k` is absent. -/
def dictSet {α : Type} (d : List (String × α)) (k : String) (v : α) :
    List (String × α) :=
  match d with
  | [] => [(k, v)]
  | (k0, v0) :: rest => if k0 = k then (k0, v) :: rest else (k0, v0) :: dictSet rest k v

/-- `get_user_hash` (lines 65-67): the first 16 characters of the MD5 hex
digest of the token.  The digest itself is the external library function
`hashlib.md5(...).hexdigest()`, passed in as `md5hex`. -/
def get_user_hash (md5hex : String → String) (token : String) : String :=
  (md5hex token).take 16

/-- `make_api_request` (lines 78-92).  The whole body sits in one
`try`/`except Exception` block: GET and POST perform the exchange and
return the response object unconditionally; any other method raises
`ValueError(f"Unsupported method: {method}")`, which the same `except`
clause catches; every caught exception is reported via `st.error` and the
function returns `None`. -/
def make_api_request (method : String) (t : Transport) : ApiResult :=
  if method = "GET" ∨ method = "POST" then
    match t with
    | Transport.completes r => ApiResult.response r
    | Transport.fails msg => ApiResult.errorNone ("API Request Error: " ++ msg)
  else
    ApiResult.errorNone ("API Request Error: Unsupported method: " ++ method)

/-- The insertion core of `save_job_to_history` (lines 114-126), applied to
an already-built `job_entry`: insert at the front of `job_history` and
truncate to 20; when `current_user_hash` is set, also insert at the front
of that user's archive bucket (created empty when absent) and truncate the
bucket to 100; when no hash is set the archive is untouched. -/
def save_entry (job_entry : JobRecord) (s : SessionState) : SessionState :=
  let jh := (job_entry :: s.job_history).take 20
  match s.current_user_hash with
  | none => { s with job_history := jh }
  | some h =>
      let bucket := (dictGet s.global_history h).getD []
      let newBucket := (job_entry :: bucket).take 100
      { s with job_history := jh, global_history := dictSet s.global_history h newBucket }

/-- `save_job_to_history` (lines 104-126): the `job_entry` dict is built
first from `job_data["id"]`, `job_data["title"]`, `job_data["company"]`,
`datetime.now()` and `job_data["status"]`; a missing key raises `KeyError`
there, before either history structure is modified, which the embedding
renders as a `none` result leaving the caller's state untouched.  On
success both structures are updated as in `save_entry`. -/
def save_job_to_history (job_data : List (String × String)) (now : String)
    (s : SessionState) : Option SessionState :=
  match dictGet job_data "id" with
  | none => none
  | some i =>
    match dictGet job_data "title" with
    | none => none
    | some t =>
      match dictGet job_data "company" with
      | none => none
      | some c =>
        match dictGet job_data "status" with
        | none => none
        | some st0 =>
          some (save_entry { id := i, title := t, company := c,
                             submitted_at := now, status := st0 } s)

/-- `load_user_history` (lines 128-133): when `current_user_hash` is set
and the archive has a bucket for it, `job_history` becomes a copy of that
bucket; in every other case the function does nothing. -/
def load_user_history (s : SessionState) : SessionState :=
  match s.current_user_hash with
  | none => s
  | some h =>
    match dictGet s.global_history h with
    | none => s
    | some b => { s with job_history := b }

/-- One status-update loop (lines 369-372 and 377-380): walk the list and
set `status` on the first record whose id matches, leaving every other
record and every other field untouched; `break` stops after the first
match. -/
def updateFirst (job_id new_status : String) : List JobRecord → List JobRecord
  | [] => []
  | j :: rest =>
    if j.id = job_id then { j with status := new_status } :: rest
    else j :: updateFirst job_id new_status rest

/-- The status-update step run after a 200 status fetch (lines 365-380):
the session loop always runs over `job_history`; the archive loop runs
only when `current_user_hash` is set and the archive has a bucket for it. -/
def update_status (job_id new_status : String) (s : SessionState) : SessionState :=
  let jh := updateFirst job_id new_status s.job_history
  match s.current_user_hash with
  | none => { s with job_history := jh }
  | some h =>
    match dictGet s.global_history h with
    | none => { s with job_history := jh }
    | some b =>
      { s with job_history := jh,
               global_history := dictSet s.global_history h (updateFirst job_id new_status b) }

/-- The Authenticate button handler (lines 150-158): `if api_key_input:`
accepts every token that is non-empty under Python string truthiness; on
acceptance it sets `api_token`, sets `current_user_hash` to the token's
hash, and calls `load_user_history`; otherwise it only reports an error. -/
def authenticate (md5hex : String → String) (token : String) (s : SessionState) :
    SessionState :=
  if token = "" then s
  else
    load_user_history
      { s with api_token := some token,
               current_user_hash := some (get_user_hash md5hex token) }

/-- The Logout button handler (lines 163-167): clears `api_token`,
`current_user_hash` and `job_history`; `global_history` survives. -/
def logout (s : SessionState) : SessionState :=
  { s with api_token := none, current_user_hash := none, job_history := [] }

/-- The export query-string construction (lines 462-474): `params` is built
by appending `name=1` for each set toggle in the fixed order, and the
query string is `"?" + "&".join(params)` when `params` is non-empty,
`""` otherwise. -/
def build_query_string (remove_timestamps remove_word_timestamps
    remove_speaker_labels remove_insights remove_keywords : Bool) : String :=
  let params : List String :=
    (if remove_timestamps then ["remove_timestamps=1"] else []) ++
    (if remove_word_timestamps then ["remove_word_level_timestamps=1"] else []) ++
    (if remove_speaker_labels then ["remove_speaker_labels=1"] else []) ++
    (if remove_insights then ["remove_insights=1"] else []) ++
    (if remove_keywords then ["remove_keywords=1"] else [])
  if params.isEmpty then "" else "?" ++ String.intercalate "&" params

/-- The same query string, written from the spec's words: five named flags
each contribute `name=1` when set, combined with `&` in the listed order,
prefixed with `?` only if at least one is set. -/
def build_query_string_spec (remove_timestamps remove_word_timestamps
    remove_speaker_labels remove_insights remove_keywords : Bool) : String :=
  let pairs : List (String × Bool) :=
    [("remove_timestamps", remove_timestamps),
     ("remove_word_level_timestamps", remove_word_timestamps),
     ("remove_speaker_labels", remove_speaker_labels),
     ("remove_insights", remove_insights),
     ("remove_keywords", remove_keywords)]
  let params := pairs.filterMap (fun p => if p.2 then some (p.1 ++ "=1") else none)
  if params.isEmpty then "" else "?" ++ String.intercalate "&" params

/-- The auto-refresh condition (lines 407-410): a further automatic check
is issued exactly when the checkbox is on and the fetched status string
equals `"processing"` under Python `==` (case-sensitive). -/
def auto_refresh_rerun (auto_refresh : Bool) (status : String) : Bool :=
  auto_refresh && status == "processing"

/-- The pause before the re-issued check: `time.sleep(5)` (line 409). -/
def auto_refresh_delay : Nat := 5

/-- States of the session reachable from the fresh state under the five
operations the claims range over, for a fixed digest function. -/
inductive Reachable (md5hex : String → String) : SessionState → Prop where
  | init : Reachable md5hex initialState
  | auth (token : String) {s : SessionState} :
      Reachable md5hex s → Reachable md5hex (authenticate md5hex token s)
  | save (e : JobRecord) {s : SessionState} :
      Reachable md5hex s → Reachable md5hex (save_entry e s)
  | load {s : SessionState} :
      Reachable md5hex s → Reachable md5hex (load_user_history s)
  | update (job_id new_status : String) {s : SessionState} :
      Reachable md5hex s → Reachable md5hex (update_status job_id new_status s)
  | out {s : SessionState} :
      Reachable md5hex s → Reachable md5hex (logout s)

/-- Recording a sequence of job entries one after the other, oldest first. -/
def saveAll (es : List JobRecord) (s : SessionState) : SessionState :=
  es.foldl (fun st e => save_entry e st) s

/-- A sample job record used for concrete evaluations. -/
def j1 : JobRecord :=
  { id := "a", title := "T", company := "C",
    submitted_at := "2025-01-01 00:00:00", status := "processing" }

/-- A session state whose session history already holds 20 records. -/
def sFull : SessionState :=
  { api_token := some "t", job_history := List.replicate 20 j1,
    global_history := [], current_user_hash := some "u" }

/-- A session with one session-history record and no archive bucket for the
current user. -/
def sNoBucket : SessionState :=
  { api_token := some "t", job_history := [j1], global_history := [],
    current_user_hash := some "u" }

/-- A session whose current user has a one-record archive bucket. -/
def sBucket : SessionState :=
  { api_token := some "t", job_history := [], global_history := [("u", [j1])],
    current_user_hash := some "u" }

/-- A session whose one record appears both in the session history and in
the current user's archive bucket. -/
def sBoth : SessionState :=
  { api_token := some "t", job_history := [j1], global_history := [("u", [j1])],
    current_user_hash := some "u" }

/-- The trace refuting the 20-record session bound: authenticate, record 21
jobs, log out, authenticate again with the same token.  The digest function
is abstract throughout the development; the identity suffices here since
only its determinism matters. -/
def c4Trace : SessionState :=
  authenticate (fun t => t) "tok"
    (logout (saveAll (List.replicate 21 j1)
      (authenticate (fun t => t) "tok" initialState)))

/-! ### Helper lemmas on the embedded dictionary and list operations -/

theorem dictGet_dictSet_self {α : Type} (d : List (String × α)) (k : String) (v : α) :
    dictGet (dictSet d k v) k = some v := by
  induction d with
  | nil => simp [dictGet, dictSet]
  | cons p rest ih =>
    obtain ⟨k0, v0⟩ := p
    by_cases h : k0 = k
    · simp [dictGet, dictSet, h]
    · simp [dictGet, dictSet, h, ih]

theorem dictGet_dictSet_ne {α : Type} (d : List (String × α)) (k k2 : String) (v : α)
    (hne : k2 ≠ k) : dictGet (dictSet d k v) k2 = dictGet d k2 := by
  induction d with
  | nil =>
    have h : ¬ k = k2 := fun he => hne he.symm
    simp [dictGet, dictSet, h]
  | cons p rest ih =>
    obtain ⟨k0, v0⟩ := p
    by_cases h : k0 = k
    · have hk2 : ¬ k = k2 := fun he => hne he.symm
      simp [dictGet, dictSet, h, hk2]
    · by_cases h2 : k0 = k2
      · simp [dictGet, dictSet, h, h2, hne]
      · simp [dictGet, dictSet, h, h2, ih]

theorem dictSet_cancel {α : Type} (d : List (String × α)) (k : String) (v : α)
    (hget : dictGet d k = some v) : dictSet d k v = d := by
  induction d with
  | nil => simp [dictGet] at hget
  | cons p rest ih =>
    obtain ⟨k0, v0⟩ := p
    by_cases h : k0 = k
    · simp [dictGet, h] at hget
      simp [dictSet, h, hget]
    · simp [dictGet, h] at hget
      simp [dictSet, h, ih hget]

theorem mem_of_dictGet {α : Type} (d : List (String × α)) (k : String) (v : α)
    (hget : dictGet d k = some v) : (k, v) ∈ d := by
  induction d with
  | nil => simp [dictGet] at hget
  | cons p rest ih =>
    obtain ⟨k0, v0⟩ := p
    by_cases h : k0 = k
    · subst h
      simp [dictGet] at hget
      simp [hget]
    · simp [dictGet, h] at hget
      exact List.mem_cons_of_mem _ (ih hget)

theorem mem_dictSet {α : Type} (d : List (String × α)) (k : String) (v : α)
    (q : String × α) (hq : q ∈ dictSet d k v) : q.2 = v ∨ q ∈ d := by
  induction d with
  | nil =>
    simp [dictSet] at hq
    subst hq
    exact Or.inl rfl
  | cons p rest ih =>
    obtain ⟨k0, v0⟩ := p
    by_cases h : k0 = k
    · simp [dictSet, h] at hq
      rcases hq with hq | hq
      · subst hq
        exact Or.inl rfl
      · exact Or.inr (List.mem_cons_of_mem _ hq)
    · simp [dictSet, h] at hq
      rcases hq with hq | hq
      · subst hq
        exact Or.inr (List.mem_cons_self _ _)
      · rcases ih hq with h2 | h2
        · exact Or.inl h2
        · exact Or.inr (List.mem_cons_of_mem _ h2)

theorem updateFirst_not_mem (job_id ns : String) (l : List JobRecord)
    (h : ∀ j ∈ l, j.id ≠ job_id) : updateFirst job_id ns l = l := by
  induction l with
  | nil => rfl
  | cons j rest ih =>
    have hj : j.id ≠ job_id := h j (List.mem_cons_self _ _)
    simp [updateFirst, hj]
    exact ih fun x hx => h x (List.mem_cons_of_mem _ hx)

theorem updateFirst_first (job_id ns : String) (pre post : List JobRecord)
    (j : JobRecord) (hpre : ∀ x ∈ pre, x.id ≠ job_id) (hj : j.id = job_id) :
    updateFirst job_id ns (pre ++ j :: post) =
      pre ++ { j with status := ns } :: post := by
  induction pre with
  | nil => simp [updateFirst, hj]
  | cons x rest ih =>
    have hx : x.id ≠ job_id := hpre x (List.mem_cons_self _ _)
    simp only [List.cons_append, updateFirst, hx, if_neg]
    simp [ih fun y hy => hpre y (List.mem_cons_of_mem _ hy)]

theorem updateFirst_length (job_id ns : String) (l : List JobRecord) :
    (updateFirst job_id ns l).length = l.length := by
  induction l with
  | nil => rfl
  | cons j rest ih =>
    by_cases h : j.id = job_id
    · simp [updateFirst, h]
    · simp [updateFirst, h, ih]

theorem update_status_job_history (job_id ns : String) (s : SessionState) :
    (update_status job_id ns s).job_history = updateFirst job_id ns s.job_history := by
  cases hc : s.current_user_hash with
  | none => simp [update_status, hc]
  | some u => cases hb : dictGet s.global_history u <;> simp [update_status, hc, hb]

theorem reachable_saveAll (md5hex : String → String) (es : List JobRecord)
    {s : SessionState} (h : Reachable md5hex s) :
    Reachable md5hex (saveAll es s) := by
  induction es generalizing s with
  | nil => exact h
  | cons e rest ih => exact ih (Reachable.save e h)

theorem load_preserves (s : SessionState)
    (hgh : ∀ p ∈ s.global_history, p.2.length ≤ 100)
    (hjh : s.job_history.length ≤ 100) :
    (load_user_history s).job_history.length ≤ 100 ∧
    (load_user_history s).global_history = s.global_history := by
  cases hc : s.current_user_hash with
  | none => simp [load_user_history, hc, hjh]
  | some u =>
    cases hb : dictGet s.global_history u with
    | none => simp [load_user_history, hc, hb, hjh]
    | some b =>
      have hblen : b.length ≤ 100 := hgh (u, b) (mem_of_dictGet _ _ _ hb)
      simp [load_user_history, hc, hb, hblen]

theorem save_preserves (e : JobRecord) (s : SessionState)
    (hgh : ∀ p ∈ s.global_history, p.2.length ≤ 100) :
    (save_entry e s).job_history.length ≤ 100 ∧
    ∀ p ∈ (save_entry e s).global_history, p.2.length ≤ 100 := by
  constructor
  · have hjh : (save_entry e s).job_history = (e :: s.job_history).take 20 := by
      cases hc : s.current_user_hash <;> simp [save_entry, hc]
    rw [hjh, List.length_take]
    exact le_trans (min_le_left _ _) (by norm_num)
  · cases hc : s.current_user_hash with
    | none => simpa [save_entry, hc] using hgh
    | some u =>
      intro p hp
      simp only [save_entry, hc] at hp
      rcases mem_dictSet _ _ _ _ hp with h2 | h2
      · rw [h2, List.length_take]
        exact min_le_left _ _
      · exact hgh p h2

theorem update_preserves (job_id ns : String) (s : SessionState)
    (hjh : s.job_history.length ≤ 100)
    (hgh : ∀ p ∈ s.global_history, p.2.length ≤ 100) :
    (update_status job_id ns s).job_history.length ≤ 100 ∧
    ∀ p ∈ (update_status job_id ns s).global_history, p.2.length ≤ 100 := by
  constructor
  · rw [update_status_job_history, updateFirst_length]
    exact hjh
  · cases hc : s.current_user_hash with
    | none => simpa [update_status, hc] using hgh
    | some u =>
      cases hb : dictGet s.global_history u with
      | none => simpa [update_status, hc, hb] using hgh
      | some b =>
        intro p hp
        simp only [update_status, hc, hb] at hp
        rcases mem_dictSet _ _ _ _ hp with h2 | h2
        · rw [h2, updateFirst_length]
          exact hgh (u, b) (mem_of_dictGet _ _ _ hb)
        · exact hgh p h2

theorem saveAll_global (es : List JobRecord) :
    ∀ (s : SessionState) (u : String), s.current_user_hash = some u →
    ((dictGet s.global_history u).getD []).length + es.length ≤ 100 →
    (saveAll es s).current_user_hash = some u ∧
    dictGet (saveAll es s).global_history u =
      (if es = [] then dictGet s.global_history u
       else some (es.reverse ++ (dictGet s.global_history u).getD [])) ∧
    ∀ k, k ≠ u →
      dictGet (saveAll es s).global_history k = dictGet s.global_history k := by
  induction es with
  | nil =>
    intro s u hc _
    exact ⟨hc, by simp [saveAll], fun k _ => rfl⟩
  | cons e rest ih =>
    intro s u hc hlen
    have hblen : ((dictGet s.global_history u).getD []).length + 1 ≤ 100 := by
      simp only [List.length_cons] at hlen
      omega
    have hstep_hash : (save_entry e s).current_user_hash = some u := by
      simp [save_entry, hc]
    have htake : (e :: (dictGet s.global_history u).getD []).take 100 =
        e :: (dictGet s.global_history u).getD [] := by
      apply List.take_of_length_le
      simpa using hblen
    have hstep_get : dictGet (save_entry e s).global_history u =
        some (e :: (dictGet s.global_history u).getD []) := by
      simp only [save_entry, hc]
      rw [dictGet_dictSet_self, htake]
    have hstep_other : ∀ k, k ≠ u →
        dictGet (save_entry e s).global_history k = dictGet s.global_history k := by
      intro k hk
      simp only [save_entry, hc]
      rw [dictGet_dictSet_ne _ _ _ _ hk]
    have hlen2 : ((dictGet (save_entry e s).global_history u).getD []).length
        + rest.length ≤ 100 := by
      rw [hstep_get]
      simp only [Option.getD_some, List.length_cons]
      simp only [List.length_cons] at hlen
      omega
    obtain ⟨h1, h2, h3⟩ := ih (save_entry e s) u hstep_hash hlen2
    refine ⟨h1, ?_, fun k hk => (h3 k hk).trans (hstep_other k hk)⟩
    have hsav : saveAll (e :: rest) s = saveAll rest (save_entry e s) := rfl
    rw [hsav, h2, hstep_get]
    cases rest with
    | nil => simp
    | cons f rest2 => simp [List.append_assoc]

/-! ### The claims -/

/-- Claim C4, counterexample: the session history is not capped at 20 under
the listed operations: after authenticating, recording 21 jobs, logging
out, and authenticating again with the same token, `load_user_history`
copies the full 21-record archive bucket into `job_history` without
truncation, so the reachable state `c4Trace` holds 21 records. -/
theorem claim_C4_counterexample :
    Reachable (fun t => t) c4Trace ∧ c4Trace.job_history.length = 21 := by
  constructor
  · exact Reachable.auth "tok"
      (Reachable.out (reachable_saveAll _ _ (Reachable.auth "tok" Reachable.init)))
  · rfl

/-- Claim C4, amended: in every reachable state the session history holds
at most 100 records and every archive bucket holds at most 100 records;
the 20-record bound holds right after an insertion but a history load
(authenticate or `load_user_history`) may install up to the full
100-record archive bucket. -/
theorem claim_C4_retention (md5hex : String → String) (s : SessionState)
    (h : Reachable md5hex s) :
    s.job_history.length ≤ 100 ∧ ∀ p ∈ s.global_history, p.2.length ≤ 100 := by
  induction h with
  | init => simp [initialState]
  | auth token h ih =>
    rename_i s0
    by_cases ht : token = ""
    · simpa [authenticate, ht] using ih
    · simp only [authenticate, if_neg ht]
      have hl := load_preserves
        { api_token := some token, job_history := s0.job_history,
          global_history := s0.global_history,
          current_user_hash := some (get_user_hash md5hex token) } ih.2 ih.1
      refine ⟨hl.1, ?_⟩
      rw [hl.2]
      exact ih.2
  | save e h ih => exact save_preserves e _ ih.2
  | load h ih =>
    constructor
    · exact (load_preserves _ ih.2 ih.1).1
    · rw [(load_preserves _ ih.2 ih.1).2]
      exact ih.2
  | update job_id ns h ih => exact update_preserves job_id ns _ ih.1 ih.2
  | out h ih =>
    constructor
    · simp [logout]
    · simpa [logout] using ih.2

/-- Claim C4, witness: the amended bound instantiated at the fresh state. -/
theorem claim_C4_witness : initialState.job_history.length ≤ 100 :=
  (claim_C4_retention (fun t => t) initialState Reachable.init).1

/-- Claim C6: for every combination of the five removal toggles, the code's
query string matches the spec's description (each set toggle one `name=1`
parameter, joined by `&` in the fixed order, `?` prefix exactly when at
least one is set); all toggles off yields no query string, and exactly
`remove_timestamps` and `remove_keywords` set yields
`?remove_timestamps=1&remove_keywords=1`. -/
theorem claim_C6_query_string :
    (∀ a b c d e : Bool,
        build_query_string a b c d e = build_query_string_spec a b c d e) ∧
    (∀ a b c d e : Bool,
        build_query_string a b c d e = "" ↔ (a || b || c || d || e) = false) ∧
    build_query_string false false false false false = "" ∧
    build_query_string true false false false true =
      "?remove_timestamps=1&remove_keywords=1" := by
  refine ⟨?_, ?_, rfl, by decide⟩
  · intro a b c d e
    cases a <;> cases b <;> cases c <;> cases d <;> cases e <;> rfl
  · intro a b c d e
    cases a <;> cases b <;> cases c <;> cases d <;> cases e <;> decide

/-- Claim C9: after a successful status fetch, the flow re-issues the check
exactly when auto-refresh is on and the fetched status equals
`"processing"` under case-sensitive comparison (so `"Processing"` does not
loop), and the pause before the re-issued check is the fixed 5-unit
interval. -/
theorem claim_C9_auto_refresh :
    (∀ (a : Bool) (s : String),
        auto_refresh_rerun a s = true ↔ a = true ∧ s = "processing") ∧
    auto_refresh_delay = 5 ∧
    auto_refresh_rerun true "Processing" = false ∧
    auto_refresh_rerun false "processing" = false := by
  refine ⟨?_, rfl, by decide, by decide⟩
  intro a s
  simp [auto_refresh_rerun]

/-- Claim C5: the token-to-user-hash mapping is a fixed function of the
token, so authenticating twice with the same token targets the same
archive bucket: starting from the fresh state, authenticating with `t`,
recording any sequence of at most 100 jobs, logging out and authenticating
with `t` again recovers exactly the recorded jobs (most recent first) into
the session history, while authenticating instead with a token `t2` whose
hash differs yields an empty — hence disjoint — session history. -/
theorem claim_C5_round_trip (md5hex : String → String) (t t2 : String)
    (es : List JobRecord) (ht : t ≠ "") (ht2 : t2 ≠ "")
    (hlen : es.length ≤ 100)
    (hne : get_user_hash md5hex t2 ≠ get_user_hash md5hex t) :
    (authenticate md5hex t
        (logout (saveAll es (authenticate md5hex t initialState)))).job_history
      = es.reverse ∧
    (authenticate md5hex t2
        (logout (saveAll es (authenticate md5hex t initialState)))).job_history
      = [] ∧
    ∀ j, j ∈ (authenticate md5hex t2
        (logout (saveAll es (authenticate md5hex t initialState)))).job_history →
      j ∉ (authenticate md5hex t
        (logout (saveAll es (authenticate md5hex t initialState)))).job_history := by
  have hinit : authenticate md5hex t initialState =
      { api_token := some t, job_history := [], global_history := [],
        current_user_hash := some (get_user_hash md5hex t) } := by
    simp [authenticate, if_neg ht, load_user_history, initialState, dictGet]
  obtain ⟨hch, hgu, hgother⟩ := saveAll_global es (authenticate md5hex t initialState)
      (get_user_hash md5hex t) (by rw [hinit]) (by rw [hinit]; simpa [dictGet] using hlen)
  have hgu0 : dictGet (authenticate md5hex t initialState).global_history
      (get_user_hash md5hex t) = none := by
    rw [hinit]
    rfl
  have hXget : dictGet
      (saveAll es (authenticate md5hex t initialState)).global_history
      (get_user_hash md5hex t) =
      (if es = [] then none else some es.reverse) := by
    rw [hgu, hgu0]
    simp
  have hXother : dictGet
      (saveAll es (authenticate md5hex t initialState)).global_history
      (get_user_hash md5hex t2) = none := by
    rw [hgother _ hne, hinit]
    rfl
  have hauth1 : authenticate md5hex t
      (logout (saveAll es (authenticate md5hex t initialState))) =
      load_user_history
        { api_token := some t, job_history := [],
          global_history :=
            (saveAll es (authenticate md5hex t initialState)).global_history,
          current_user_hash := some (get_user_hash md5hex t) } := by
    simp only [authenticate, if_neg ht, logout]
  have hauth2 : authenticate md5hex t2
      (logout (saveAll es (authenticate md5hex t initialState))) =
      load_user_history
        { api_token := some t2, job_history := [],
          global_history :=
            (saveAll es (authenticate md5hex t initialState)).global_history,
          current_user_hash := some (get_user_hash md5hex t2) } := by
    simp only [authenticate, if_neg ht2, logout]
  have h2 : (authenticate md5hex t2
      (logout (saveAll es (authenticate md5hex t initialState)))).job_history = [] := by
    rw [hauth2]
    simp [load_user_history, hXother]
  refine ⟨?_, h2, ?_⟩
  · rw [hauth1]
    by_cases hes : es = []
    · subst hes
      simp only [if_pos rfl] at hXget
      simp [load_user_history, hXget]
    · simp only [if_neg hes] at hXget
      simp [load_user_history, hXget]
  · intro j hj
    rw [h2] at hj
    simp at hj

/-- Claim C5, witness: with the identity digest and tokens `"a"` and `"b"`
(whose 16-character hashes differ), recording one job under `"a"` and
re-authenticating recovers it, while `"b"` sees an empty history. -/
theorem claim_C5_witness :
    (authenticate (fun x => x) "a"
        (logout (saveAll [j1] (authenticate (fun x => x) "a" initialState)))).job_history
      = [j1] ∧
    (authenticate (fun x => x) "b"
        (logout (saveAll [j1] (authenticate (fun x => x) "a" initialState)))).job_history
      = [] := by
  have h := claim_C5_round_trip (fun x => x) "a" "b" [j1]
    (by decide) (by decide) (by simp) (by decide)
  exact ⟨by simpa using h.1, h.2.1⟩

/-- Claim C1: `save_job_to_history`'s insertion step puts the new record at
the front of the session history and truncates it to 20 entries; when a
user hash is set the record also goes to the front of that user's archive
bucket truncated to 100 while other buckets are untouched; when no user
hash is set the archive is untouched; and when the session history already
holds 20 records the insertion evicts exactly the oldest (last) one. -/
theorem claim_C1_record_job (e : JobRecord) (s : SessionState) :
    (save_entry e s).job_history = (e :: s.job_history).take 20 ∧
    (save_entry e s).job_history.head? = some e ∧
    (s.job_history.length = 20 →
        (save_entry e s).job_history = e :: s.job_history.dropLast) ∧
    (∀ h, s.current_user_hash = some h →
        dictGet (save_entry e s).global_history h =
          some ((e :: (dictGet s.global_history h).getD []).take 100) ∧
        ∀ h2, h2 ≠ h →
          dictGet (save_entry e s).global_history h2 = dictGet s.global_history h2) ∧
    (s.current_user_hash = none → (save_entry e s).global_history = s.global_history) := by
  have hjh : (save_entry e s).job_history = (e :: s.job_history).take 20 := by
    cases hc : s.current_user_hash <;> simp [save_entry, hc]
  refine ⟨hjh, ?_, ?_, ?_, ?_⟩
  · rw [hjh]
    rfl
  · intro h20
    rw [hjh, List.take_succ_cons, List.dropLast_eq_take, h20]
  · intro h hc
    constructor
    · simp [save_entry, hc, dictGet_dictSet_self]
    · intro h2 hne
      simp [save_entry, hc, dictGet_dictSet_ne _ _ _ _ hne]
  · intro hc
    simp [save_entry, hc]

/-- Claim C1, witness: inserting the sample record into a session whose
history already holds 20 records puts it at the front and drops the last
record, and creates a one-record archive bucket for the current user. -/
theorem claim_C1_witness :
    (save_entry j1 sFull).job_history = j1 :: sFull.job_history.dropLast ∧
    dictGet (save_entry j1 sFull).global_history "u" = some [j1] := by
  have h := claim_C1_record_job j1 sFull
  refine ⟨h.2.2.1 (by simp [sFull]), ?_⟩
  rw [(h.2.2.2.1 "u" rfl).1]
  rfl

/-- Claim C10: building the job entry reads `job_data["id"]`, `["title"]`,
`["company"]` and `["status"]` before either history structure is touched:
with all four keys present the call completes and performs the usual
insertion; with any key missing it raises `KeyError` there, embedded as a
`none` result with the caller's state untouched. -/
theorem claim_C10_save_requires_keys (jd : List (String × String)) (now : String)
    (s : SessionState) :
    ((save_job_to_history jd now s).isSome ↔
        (dictGet jd "id").isSome ∧ (dictGet jd "title").isSome ∧
        (dictGet jd "company").isSome ∧ (dictGet jd "status").isSome) ∧
    (∀ i t c st0,
        dictGet jd "id" = some i → dictGet jd "title" = some t →
        dictGet jd "company" = some c → dictGet jd "status" = some st0 →
        save_job_to_history jd now s =
          some (save_entry { id := i, title := t, company := c,
                             submitted_at := now, status := st0 } s)) ∧
    ((dictGet jd "id" = none ∨ dictGet jd "title" = none ∨
      dictGet jd "company" = none ∨ dictGet jd "status" = none) →
        save_job_to_history jd now s = none) := by
  cases hid : dictGet jd "id" <;> cases ht : dictGet jd "title" <;>
    cases hc : dictGet jd "company" <;> cases hs : dictGet jd "status" <;>
    simp [save_job_to_history, hid, ht, hc, hs]
  intro i t c st0 hi ht2 hc2 hs2
  subst hi
  subst ht2
  subst hc2
  subst hs2
  rfl

/-- Claim C10, witness: a descriptor holding all four keys is recorded, and
dropping the `status` key makes the call fail with both structures
untouched. -/
theorem claim_C10_witness :
    save_job_to_history
        [("id", "a"), ("title", "T"), ("company", "C"), ("status", "processing")]
        "2025-01-01 00:00:00" initialState = some (save_entry j1 initialState) ∧
    save_job_to_history [("id", "a"), ("title", "T"), ("company", "C")]
        "2025-01-01 00:00:00" initialState = none := by
  constructor
  · exact (claim_C10_save_requires_keys
      [("id", "a"), ("title", "T"), ("company", "C"), ("status", "processing")]
      "2025-01-01 00:00:00" initialState).2.1 "a" "T" "C" "processing" rfl rfl rfl rfl
  · exact (claim_C10_save_requires_keys
      [("id", "a"), ("title", "T"), ("company", "C")]
      "2025-01-01 00:00:00" initialState).2.2 (Or.inr (Or.inr (Or.inr rfl)))

/-- Claim C7, counterexample: the handler checks only Python truthiness
(`if api_key_input:`), so the whitespace-only token `" "` is accepted:
`api_token` and `current_user_hash` are both set rather than left
unchanged. -/
theorem claim_C7_counterexample :
    (authenticate (fun t => t) " " initialState).api_token = some " " ∧
    (authenticate (fun t => t) " " initialState).current_user_hash = some " " := by
  constructor <;> rfl

/-- Claim C7, amended: the handler rejects exactly the empty token, leaving
the whole state unchanged; every non-empty token — including
whitespace-only ones — is accepted: `api_token` becomes the token,
`current_user_hash` its 16-character hash, the archive is unchanged, and
the history load installs the user's bucket when one exists (otherwise the
session history is left as it was). -/
theorem claim_C7_authenticate (md5hex : String → String) (t : String)
    (s : SessionState) :
    (t = "" → authenticate md5hex t s = s) ∧
    (t ≠ "" →
        (authenticate md5hex t s).api_token = some t ∧
        (authenticate md5hex t s).current_user_hash =
          some (get_user_hash md5hex t) ∧
        (authenticate md5hex t s).global_history = s.global_history ∧
        (authenticate md5hex t s).job_history =
          (dictGet s.global_history (get_user_hash md5hex t)).getD s.job_history) := by
  constructor
  · intro h
    simp [authenticate, h]
  · intro h
    simp only [authenticate, if_neg h]
    cases hb : dictGet s.global_history (get_user_hash md5hex t) <;>
      simp [load_user_history, hb]

/-- Claim C7, witness: the non-empty token `"x"` is accepted from the fresh
state and stored as the session's token. -/
theorem claim_C7_witness :
    (authenticate (fun x => x) "x" initialState).api_token = some "x" :=
  ((claim_C7_authenticate (fun x => x) "x" initialState).2 (by decide)).1

/-- Claim C8, counterexample: with a current user that has no archive
bucket, `load_user_history` leaves the non-empty session history exactly
as it was instead of replacing it by the empty sequence. -/
theorem claim_C8_counterexample :
    load_user_history sNoBucket = sNoBucket ∧ sNoBucket.job_history ≠ [] := by
  exact ⟨rfl, by decide⟩

/-- Claim C8, amended: when the current user hash is set and the archive
has a bucket for it, the session history becomes a copy of that bucket and
nothing else changes; when the bucket is absent, or no user hash is set,
the function is a no-op (the session history keeps its previous value
rather than becoming empty). -/
theorem claim_C8_load_user_history (s : SessionState) :
    (s.current_user_hash = none → load_user_history s = s) ∧
    (∀ u, s.current_user_hash = some u →
        (∀ b, dictGet s.global_history u = some b →
            (load_user_history s).job_history = b ∧
            (load_user_history s).global_history = s.global_history ∧
            (load_user_history s).api_token = s.api_token ∧
            (load_user_history s).current_user_hash = s.current_user_hash) ∧
        (dictGet s.global_history u = none → load_user_history s = s)) := by
  constructor
  · intro h
    simp [load_user_history, h]
  · intro u hu
    constructor
    · intro b hb
      simp [load_user_history, hu, hb]
    · intro hb
      simp [load_user_history, hu, hb]

/-- Claim C8, witness: loading for a user whose archive bucket holds the
sample record installs exactly that bucket as the session history. -/
theorem claim_C8_witness :
    (load_user_history sBucket).job_history = [j1] :=
  (((claim_C8_load_user_history sBucket).2 "u" rfl).1 [j1] rfl).1

/-- Claim C2: the status-update step after a 200 fetch is a frame-exact
update: when no record with the id exists in the session history nor in
the current user's archive bucket, the whole state is unchanged (a no-op);
when matches exist, exactly the first matching record in each structure
gets its status field replaced, every other field and record being
preserved, other users' buckets are untouched, and when no user hash is
set (or the bucket is absent) the archive is untouched. -/
theorem claim_C2_update_status (job_id new_status : String) (s : SessionState) :
    ((∀ j ∈ s.job_history, j.id ≠ job_id) →
     (∀ u b, s.current_user_hash = some u → dictGet s.global_history u = some b →
        ∀ j ∈ b, j.id ≠ job_id) →
     update_status job_id new_status s = s) ∧
    (∀ pre j post, s.job_history = pre ++ j :: post →
        (∀ x ∈ pre, x.id ≠ job_id) → j.id = job_id →
        (update_status job_id new_status s).job_history =
          pre ++ { j with status := new_status } :: post) ∧
    ((∀ j ∈ s.job_history, j.id ≠ job_id) →
        (update_status job_id new_status s).job_history = s.job_history) ∧
    (∀ u, s.current_user_hash = some u →
        (dictGet s.global_history u = none →
            (update_status job_id new_status s).global_history = s.global_history) ∧
        (∀ b, dictGet s.global_history u = some b →
            ((∀ j ∈ b, j.id ≠ job_id) →
                (update_status job_id new_status s).global_history = s.global_history) ∧
            (∀ pre j post, b = pre ++ j :: post →
                (∀ x ∈ pre, x.id ≠ job_id) → j.id = job_id →
                dictGet (update_status job_id new_status s).global_history u =
                  some (pre ++ { j with status := new_status } :: post)) ∧
            (∀ u2, u2 ≠ u →
                dictGet (update_status job_id new_status s).global_history u2 =
                  dictGet s.global_history u2))) ∧
    (s.current_user_hash = none →
        (update_status job_id new_status s).global_history = s.global_history) ∧
    (update_status job_id new_status s).api_token = s.api_token ∧
    (update_status job_id new_status s).current_user_hash = s.current_user_hash := by
  have hjh : (update_status job_id new_status s).job_history =
      updateFirst job_id new_status s.job_history := by
    cases hc : s.current_user_hash with
    | none => simp [update_status, hc]
    | some u => cases hb : dictGet s.global_history u <;> simp [update_status, hc, hb]
  refine ⟨?_, ?_, ?_, ?_, ?_, ?_, ?_⟩
  · intro hnjh harch
    cases hc : s.current_user_hash with
    | none =>
      simp [update_status, hc, updateFirst_not_mem _ _ _ hnjh]
      rw [← hc]
    | some u =>
      cases hb : dictGet s.global_history u with
      | none =>
        simp [update_status, hc, hb, updateFirst_not_mem _ _ _ hnjh]
        rw [← hc]
      | some b =>
        have hbno : ∀ j ∈ b, j.id ≠ job_id := harch u b hc hb
        simp [update_status, hc, hb, updateFirst_not_mem _ _ _ hnjh,
              updateFirst_not_mem _ _ _ hbno, dictSet_cancel _ _ _ hb]
        rw [← hc]
  · intro pre j post hdecomp hpre hj
    rw [hjh, hdecomp, updateFirst_first _ _ _ _ _ hpre hj]
  · intro hnjh
    rw [hjh, updateFirst_not_mem _ _ _ hnjh]
  · intro u hc
    refine ⟨fun hb => by simp [update_status, hc, hb], fun b hb => ⟨?_, ?_, ?_⟩⟩
    · intro hbno
      simp [update_status, hc, hb, updateFirst_not_mem _ _ _ hbno,
            dictSet_cancel _ _ _ hb]
    · intro pre j post hdecomp hpre hj
      simp only [update_status, hc, hb]
      rw [dictGet_dictSet_self, hdecomp, updateFirst_first _ _ _ _ _ hpre hj]
    · intro u2 hne
      simp only [update_status, hc, hb]
      rw [dictGet_dictSet_ne _ _ _ _ hne]
  · intro hc
    simp [update_status, hc]
  · cases hc : s.current_user_hash with
    | none => simp [update_status, hc]
    | some u => cases hb : dictGet s.global_history u <;> simp [update_status, hc, hb]
  · cases hc : s.current_user_hash with
    | none => simp [update_status, hc]
    | some u => cases hb : dictGet s.global_history u <;> simp [update_status, hc, hb]

/-- Claim C2, witness: updating the sample job's status to `"completed"`
in a session where it sits in both structures replaces exactly its status
in each. -/
theorem claim_C2_witness :
    (update_status "a" "completed" sBoth).job_history =
      [{ j1 with status := "completed" }] ∧
    dictGet (update_status "a" "completed" sBoth).global_history "u" =
      some [{ j1 with status := "completed" }] := by
  have h := claim_C2_update_status "a" "completed" sBoth
  constructor
  · have h1 := h.2.1 [] j1 [] rfl (by simp) rfl
    simpa using h1
  · have h2 := ((h.2.2.2.1 "u" rfl).2 [j1] rfl).2.1 [] j1 [] rfl (by simp) rfl
    simpa using h2

/-- Claim C3, counterexample: with the unsupported method `"PUT"` and a
transport that would complete the exchange, `make_api_request` does not
surface a contract violation: the raised `ValueError` is caught by the
function's own `except Exception` clause and recovered into the normal
error-reporting path, yielding the same no-response error outcome the
claim reserves for transport-level failures. -/
theorem claim_C3_counterexample :
    make_api_request "PUT" (Transport.completes { status_code := 200, text := "ok" }) =
      ApiResult.errorNone "API Request Error: Unsupported method: PUT" ∧
    ∀ r : HttpResponse,
      make_api_request "PUT" (Transport.completes { status_code := 200, text := "ok" }) ≠
        ApiResult.response r := by
  exact ⟨rfl, fun r h => ApiResult.noConfusion h⟩

/-- Claim C3, amended: for GET and POST, every completed exchange returns
the raw response regardless of its status code, and a transport failure
yields the reported-error outcome with no response object; a method
outside GET/POST also yields that same no-response error outcome (its
`ValueError` is caught by the function's own exception handler), without
any exchange being attempted. -/
theorem claim_C3_make_api_request (method : String) (t : Transport) :
    ((method = "GET" ∨ method = "POST") → ∀ r : HttpResponse,
        make_api_request method (Transport.completes r) = ApiResult.response r) ∧
    ((method = "GET" ∨ method = "POST") → ∀ msg : String,
        make_api_request method (Transport.fails msg) =
          ApiResult.errorNone ("API Request Error: " ++ msg)) ∧
    (method ≠ "GET" ∧ method ≠ "POST" →
        make_api_request method t =
          ApiResult.errorNone ("API Request Error: Unsupported method: " ++ method)) := by
  refine ⟨fun h r => ?_, fun h msg => ?_, fun h => ?_⟩
  · simp [make_api_request, h]
  · simp [make_api_request, h]
  · simp [make_api_request, h.1, h.2]

/-- Claim C3, witness: instantiating the amended theorem at method GET and
a completed exchange with status code 404 shows the 4xx response is
returned as a normal result. -/
theorem claim_C3_witness :
    make_api_request "GET" (Transport.completes { status_code := 404, text := "nf" }) =
      ApiResult.response { status_code := 404, text := "nf" } :=
  (claim_C3_make_api_request "GET"
    (Transport.completes { status_code := 404, text := "nf" })).1
    (Or.inl rfl) { status_code := 404, text := "nf" }

end INFLXD
